import Mathlib

/-!
Verification development for the trade-svc swap orchestration pipeline.

Shallow embedding of the TypeScript sources:
  * `trade-svc/src/dex.ts` (Metis/Jupiter variant): `keyBytes`, `mapAxiosErr`-style
    transient classification, `ensureSufficientBalances`, the priority-fee
    conversion and the 3-attempt retry loop of `dexSwap`;
  * `trade-svc/src/metis-jupiter.ts`: `getQuote` and `buildSwapTx` provider
    fallback iteration;
  * `trade-svc/src/solana.ts`: `keypairFromInput`;
  * `trade-svc/src/index.ts`: the `/pumpfun/swap` handler (Trade Record
    lifecycle, Jito bundle path and its 429/503 fallback);
  * `trade-svc/src/jito.js`: `sendBundleToJito`;
  * `trade-svc/src/db.ts`: the in-memory Trade store.

External I/O (RPC balances, HTTP provider responses, relay responses,
simulation and send outcomes) is modelled as explicit environment data
passed to each function; the functions themselves mirror the source
control flow.
-/

deriving instance DecidableEq for Except

/-! ## String helpers (JS `String.prototype.includes`, regex fragments) -/

/-- Is `p` a prefix of `l`? (mirrors the character-by-character test used by
JS `includes` below). -/
def listStartsWith : List Char → List Char → Bool
  | _, [] => true
  | [], _ :: _ => false
  | c :: cs, d :: ds => c = d && listStartsWith cs ds

/-- Does `l` contain `p` as a contiguous substring? -/
def listHasSub : List Char → List Char → Bool
  | l, p =>
    if listStartsWith l p then true
    else match l with
      | [] => false
      | _ :: t => listHasSub t p

/-- JS `s.includes(pat)`. -/
def strContains (s pat : String) : Bool := listHasSub s.toList pat.toList

/-- JS `s.slice(0, 300)`. -/
def strTake300 (s : String) : String := String.mk (s.toList.take 300)

/-- JS `s.toLowerCase()` (ASCII). -/
def strLower (s : String) : String := String.mk (s.toList.map Char.toLower)

/-- Does the character list start with `HTTP 5` followed by two digits?
(the `HTTP 5\d\d` alternative of the retry regex in `dexSwap`). -/
def startsHTTP5xx : List Char → Bool
  | 'H' :: 'T' :: 'T' :: 'P' :: ' ' :: '5' :: a :: b :: _ => a.isDigit && b.isDigit
  | _ => false

/-- Is `HTTP 5\d\d` matched anywhere in the list? -/
def hasHTTP5xx : List Char → Bool
  | [] => false
  | c :: rest => startsHTTP5xx (c :: rest) || hasHTTP5xx rest

/-- `dexSwap`'s transient-failure classifier: the test
`/network_error|HTTP 5\d\d|429/.test(lastErr)` on the error text. -/
def isTransientErr (s : String) : Bool :=
  strContains s "network_error" || hasHTTP5xx s.toList || strContains s "429"

/-! ## Private-key decoding

`keyBytes` (dex.ts) and `keypairFromInput` (solana.ts).
Bytes are `Nat` values `< 256`; decoding failures are explicit errors.
-/

/-- Error outcomes of the two key decoders.  `empty` is dex.ts's
`'empty privateKey'`; `invalidFormat` is dex.ts's catch-all
`'invalid private key format'`; `jsonError`/`base58Error` are the raw
`JSON.parse`/`bs58.decode` exceptions that `keypairFromInput` lets
propagate (it has no try/catch); `badLength` is solana.ts's
`'Private key must be 64 bytes'`. -/
inductive KeyErr
  | empty
  | invalidFormat
  | jsonError
  | base58Error
  | badLength
deriving DecidableEq

/-- ASCII whitespace removed by JS `trim`. -/
def isJsWs (c : Char) : Bool :=
  c = ' ' || c = '\t' || c = '\n' || c = '\r'

/-- JS `s.trim()` over the character list. -/
def trimChars (cs : List Char) : List Char :=
  ((cs.dropWhile isJsWs).reverse.dropWhile isJsWs).reverse

/-- Skip JSON whitespace. -/
def skipWs : List Char → List Char
  | c :: rest =>
    if c = ' ' ∨ c = '\t' ∨ c = '\n' ∨ c = '\r' then skipWs rest else c :: rest
  | [] => []

/-- Take a maximal run of decimal digits. -/
def grabDigits : List Char → List Char × List Char
  | c :: rest =>
    if c.isDigit then
      let (d, r) := grabDigits rest
      (c :: d, r)
    else ([], c :: rest)
  | [] => ([], [])

/-- Decimal digits to a natural number. -/
def digitsToNat (ds : List Char) : Nat :=
  ds.foldl (fun a c => a * 10 + (c.toNat - 48)) 0

/-- Parse the items of a JSON array of unsigned integers, after the opening
bracket: `ws n ws ( ']' | ',' items )`.  Fuel bounds the recursion. -/
def parseItems : Nat → List Char → Option (List Nat × List Char)
  | 0, _ => none
  | fuel + 1, cs =>
    let cs1 := skipWs cs
    let (ds, rest) := grabDigits cs1
    if ds.isEmpty then none
    else
      let n := digitsToNat ds
      match skipWs rest with
      | ']' :: tail => some ([n], tail)
      | ',' :: tail =>
        match parseItems fuel tail with
        | some (ns, tail2) => some (n :: ns, tail2)
        | none => none
      | _ => none

/-- `JSON.parse` restricted to arrays of unsigned decimal integers (the
documented secret-key format `[b0, …, b63]`); anything else fails, matching
a thrown `JSON.parse` error. -/
def parseJsonByteArray (cs0 : List Char) : Option (List Nat) :=
  match skipWs cs0 with
  | '[' :: rest =>
    match skipWs rest with
    | ']' :: tail => if (skipWs tail).isEmpty then some [] else none
    | _ =>
      match parseItems (rest.length + 1) rest with
      | some (ns, tail) => if (skipWs tail).isEmpty then some ns else none
      | none => none
  | _ => none

/-- The base58 alphabet used by `bs58`. -/
def B58_CHARS : List Char :=
  "123456789ABCDEFGHJKLMNPQRSTUVWXYZabcdefghijkmnopqrstuvwxyz".toList

/-- Index of a character in the base58 alphabet. -/
def b58Index (c : Char) : Option Nat :=
  B58_CHARS.findIdx? (fun a => a = c)

/-- Little-endian base-256 digits of `n` (fuel-bounded). -/
def natBytesLE : Nat → Nat → List Nat
  | 0, _ => []
  | fuel + 1, n => if n = 0 then [] else n % 256 :: natBytesLE fuel (n / 256)

/-- Number of leading `'1'` characters (each stands for a `0x00` byte). -/
def countLeadOnes : List Char → Nat
  | '1' :: rest => countLeadOnes rest + 1
  | _ => 0

/-- `bs58.decode`: `none` models the thrown non-base58-character error. -/
def bs58Decode (cs : List Char) : Option (List Nat) :=
  if cs.all (fun c => (b58Index c).isSome) then
    let n := cs.foldl (fun acc c => acc * 58 + (b58Index c).getD 0) 0
    some (List.replicate (countLeadOnes cs) 0 ++ (natBytesLE (cs.length + 1) n).reverse)
  else none

/-- Is `c` one of `[0-9a-fA-F]`? -/
def isHexDig (c : Char) : Bool :=
  c.isDigit || ('a' ≤ c && c ≤ 'f') || ('A' ≤ c && c ≤ 'F')

/-- The test `/^(0x)?[0-9a-fA-F]+$/.test(s)`. -/
def hexRegexOk (cs : List Char) : Bool :=
  (!cs.isEmpty && cs.all isHexDig) ||
    (match cs with
     | '0' :: 'x' :: rest => !rest.isEmpty && rest.all isHexDig
     | _ => false)

/-- Value of a hex digit. -/
def hexVal (c : Char) : Nat :=
  if c.isDigit then c.toNat - 48
  else if 'a' ≤ c ∧ c ≤ 'f' then c.toNat - 87
  else if 'A' ≤ c ∧ c ≤ 'F' then c.toNat - 55
  else 0

/-- `Buffer.from(hex, 'hex')`: decode pairs of nibbles, dropping a trailing
odd nibble. -/
def hexPairsDecode : List Char → List Nat
  | a :: b :: rest => (16 * hexVal a + hexVal b) :: hexPairsDecode rest
  | _ => []

/-- dex.ts `keyBytes`: trims, rejects empty input, then inside one
try/catch tries a JSON byte array, a hex string (optional `0x`), and
base58; any decoding exception becomes `invalid private key format`.
No length check is performed. -/
def keyBytes (input : String) : Except KeyErr (List Nat) :=
  let cs := trimChars input.toList
  if cs.isEmpty then .error .empty
  else if cs.head? = some '[' then
    match parseJsonByteArray cs with
    | some ns => .ok (ns.map (· % 256))
    | none => .error .invalidFormat
  else if hexRegexOk cs then
    let hexCs :=
      match cs with
      | '0' :: 'x' :: rest => rest
      | _ => cs
    .ok (hexPairsDecode hexCs)
  else
    match bs58Decode cs with
    | some bs => .ok bs
    | none => .error .invalidFormat

/-- The `secret` assignment of solana.ts `keypairFromInput`: a trimmed
input starting with `[` is parsed as a JSON byte array, anything else is
base58-decoded; there is no hex branch and no try/catch, so decoder
exceptions propagate raw. -/
def keypairSecretBytes (input : String) : Except KeyErr (List Nat) :=
  let cs := trimChars input.toList
  if cs.head? = some '[' then
    match parseJsonByteArray cs with
    | some ns => .ok (ns.map (· % 256))
    | none => .error .jsonError
  else
    match bs58Decode cs with
    | some bs => .ok bs
    | none => .error .base58Error

/-- The 64-byte length gate of `keypairFromInput`: pass errors through,
fail a wrong-length secret with `Private key must be 64 bytes`. -/
def lengthGate : Except KeyErr (List Nat) → Except KeyErr (List Nat)
  | .error e => .error e
  | .ok bs => if bs.length = 64 then .ok bs else .error .badLength

/-- solana.ts `keypairFromInput`: decode the secret, then require exactly
64 bytes. -/
def keypairFromInput (input : String) : Except KeyErr (List Nat) :=
  lengthGate (keypairSecretBytes input)

/-! ## Balance preflight (`ensureSufficientBalances`, dex.ts) -/

/-- The native SOL mint constant `NATIVE_SOL` from dex.ts. -/
def NATIVE_SOL : String := "So11111111111111111111111111111111111111112"

/-- RPC observations consumed by the preflight check.
`ataOutLookup`: `none` models a thrown `new PublicKey`/`getAccountInfo`
error (the catch ignores it), `some b` a successful lookup where `b` says
whether the output associated token account exists.
`tokenLookup`: `none` models a thrown `getParsedTokenAccountsByOwner`,
`some amts` the raw-unit balances of the signer's holding accounts. -/
structure BalEnv where
  balLamports : Nat
  rentAta : Nat
  ataOutLookup : Option Bool
  tokenLookup : Option (List Nat)
deriving DecidableEq

/-- Errors produced (or, for `tokenBalanceLow`, merely constructed) by the
preflight check. `rpcError` stands for a thrown token-account lookup. -/
inductive BalErr
  | balanceLow (required bal : Nat)
  | tokenBalanceLow (haveRaw needRaw : Nat)
  | rpcError
deriving DecidableEq

/-- The `required` lamports accumulator of `ensureSufficientBalances`:
10000 base-fee margin, plus `amount + rentAta` when the input mint is
native SOL, plus `rentAta` when the output mint is a token whose ATA
lookup succeeded and reported the account missing (a thrown lookup is
ignored by the surrounding catch). -/
def requiredLamports (inputMint outputMint : String) (amountRaw : Nat) (env : BalEnv) : Nat :=
  10000
    + (if inputMint = NATIVE_SOL then amountRaw + env.rentAta else 0)
    + (if outputMint ≠ NATIVE_SOL then
        (match env.ataOutLookup with
         | some false => env.rentAta
         | _ => 0)
      else 0)

/-- The body of the SPL token-balance try block: sum the raw balances of
all holding accounts and construct `token_balance_low` when the total is
below the requested amount; a thrown lookup is `rpcError`. -/
def tokenCheckInner (amountRaw : Nat) (env : BalEnv) : Except BalErr Unit :=
  match env.tokenLookup with
  | none => .error .rpcError
  | some amts =>
    let totalRaw := amts.sum
    if totalRaw < amountRaw then .error (.tokenBalanceLow totalRaw amountRaw)
    else .ok ()

/-- `ensureSufficientBalances`: the SOL-balance check throws
`balance_low` when the balance is below `required`; the SPL token check
runs inside a try whose catch swallows every error — including the
`token_balance_low` it itself throws — so it never fails the call. -/
def ensureSufficientBalances (inputMint outputMint : String) (amountRaw : Nat)
    (env : BalEnv) : Except BalErr Unit :=
  let required := requiredLamports inputMint outputMint amountRaw env
  if env.balLamports < required then
    .error (.balanceLow required env.balLamports)
  else if inputMint ≠ NATIVE_SOL then
    match tokenCheckInner amountRaw env with
    | .ok _ => .ok ()
    | .error _ => .ok ()
  else .ok ()

/-! ## Priority-fee conversion (dex.ts, Metis variant) -/

/-- `computeFromSol`: `Math.max(1, Math.floor(pf * 5_000_000))` with
`BASELINE_CU_FOR_1_SOL = 5_000_000` micro-lamports/CU per SOL. -/
def computeFromSol (pf : ℚ) : ℤ := max 1 ⌊pf * 5000000⌋

/-- The fee resolution in `dexSwap`:
`computeOverride ?? (priorityFee > 0 ? computeFromSol(priorityFee) : undefined)`. -/
def resolveCuPrice (computeOverride : Option ℤ) (priorityFee : ℚ) : Option ℤ :=
  match computeOverride with
  | some v => some v
  | none => if 0 < priorityFee then some (computeFromSol priorityFee) else none

/-! ## Retry loop of `dexSwap` -/

/-- Outcome of one quote→build→sign→(simulate)→send attempt, as observed
by the retry loop's catch.  A simulation failure never appears here: the
inner `try { simulate } catch {}` swallows it. -/
inductive AttemptOutcome
  | quoteErr (msg : String)
  | buildErr (msg : String)
  | sendErr (msg : String)
  | success (sig : String)
deriving DecidableEq

/-- The value an attempt contributes to the catch: the error text
(`mapAxiosErr` output) or the returned signature. -/
def stepOf : AttemptOutcome → Except String String
  | .quoteErr m => .error m
  | .buildErr m => .error m
  | .sendErr m => .error m
  | .success s => .ok s

/-- Whether the attempt reached the build call (a quote failure aborts the
attempt before `buildSwapTx`). -/
def buildInc : AttemptOutcome → Nat
  | .quoteErr _ => 0
  | _ => 1

/-- Observable result of the retry loop: final result, number of attempts
executed, the `sleep` backoff delays taken (ms), and how many
`getQuote` / `buildSwapTx` invocations were made. -/
structure CycleOut where
  result : Except String String
  attemptsRun : Nat
  delays : List Nat
  quoteCalls : Nat
  buildCalls : Nat
deriving DecidableEq

/-- The loop `for (attempt = 0; attempt < 3; attempt++)`: an attempt error
is retried only when its text is transient and `attempt !== 2`, after
`sleep(500 * 2 ** attempt)`; otherwise it is thrown as the final error. -/
def runFrom (att : Nat → AttemptOutcome) : Nat → Nat → CycleOut
  | 0, _ =>
    { result := .error "unknown_error", attemptsRun := 0, delays := [],
      quoteCalls := 0, buildCalls := 0 }
  | fuel + 1, idx =>
    match stepOf (att idx) with
    | .ok s =>
      { result := .ok s, attemptsRun := 1, delays := [],
        quoteCalls := 1, buildCalls := buildInc (att idx) }
    | .error m =>
      if isTransientErr m = true ∧ idx ≠ 2 then
        { result := (runFrom att fuel (idx + 1)).result,
          attemptsRun := (runFrom att fuel (idx + 1)).attemptsRun + 1,
          delays := 500 * 2 ^ idx :: (runFrom att fuel (idx + 1)).delays,
          quoteCalls := (runFrom att fuel (idx + 1)).quoteCalls + 1,
          buildCalls := (runFrom att fuel (idx + 1)).buildCalls + buildInc (att idx) }
      else
        { result := .error m, attemptsRun := 1, delays := [],
          quoteCalls := 1, buildCalls := buildInc (att idx) }

/-- The full 3-attempt cycle. -/
def runCycle (att : Nat → AttemptOutcome) : CycleOut := runFrom att 3 0

/-! ## `dexSwap` (dex.ts, Metis variant) -/

/-- `SwapParams` of dex.ts (fields relevant to the modelled pipeline). -/
structure SwapParams where
  privateKey : String
  inputMint : String
  outputMint : String
  amountLamports : Nat
  priorityFee : ℚ := 0
  computeOverride : Option ℤ := none
deriving DecidableEq

/-- External world consumed by one `dexSwap` call. -/
structure DexEnv where
  bal : BalEnv
  att : Nat → AttemptOutcome

/-- `dexSwap` failure modes. `badKeySize` is the `Keypair.fromSecretKey`
library error on a secret that is not 64 bytes; `preflight` wraps a
`balance_low` thrown by `ensureSufficientBalances`; `cycleErr` is the
final error text thrown out of the retry loop. -/
inductive DexErr
  | missingFields
  | invalidKey (e : KeyErr)
  | badKeySize
  | preflight (e : BalErr)
  | cycleErr (msg : String)
deriving DecidableEq

/-- Full observable output of `dexSwap`: result plus the retry-loop
statistics and the resolved compute-unit price passed to the build step. -/
structure DexOut where
  result : Except DexErr String
  attemptsRun : Nat
  delays : List Nat
  quoteCalls : Nat
  buildCalls : Nat
  cuPrice : Option ℤ
deriving DecidableEq

/-- A `DexOut` for a call that aborted before the retry loop. -/
def dexAbort (e : DexErr) : DexOut :=
  { result := .error e, attemptsRun := 0, delays := [], quoteCalls := 0,
    buildCalls := 0, cuPrice := none }

/-- `dexSwap`: missing-field validation, key decoding, balance preflight,
fee conversion, then the retried quote+build+send cycle. -/
def dexSwap (p : SwapParams) (env : DexEnv) : DexOut :=
  if p.privateKey = "" ∨ p.inputMint = "" ∨ p.outputMint = "" ∨ p.amountLamports = 0 then
    dexAbort .missingFields
  else
    match keyBytes p.privateKey with
    | .error e => dexAbort (.invalidKey e)
    | .ok bytes =>
      if bytes.length ≠ 64 then dexAbort .badKeySize
      else
        match ensureSufficientBalances p.inputMint p.outputMint p.amountLamports env.bal with
        | .error e => dexAbort (.preflight e)
        | .ok _ =>
          let cu := resolveCuPrice p.computeOverride p.priorityFee
          let c := runCycle env.att
          { result :=
              match c.result with
              | .ok s => .ok s
              | .error m => .error (.cycleErr m),
            attemptsRun := c.attemptsRun, delays := c.delays,
            quoteCalls := c.quoteCalls, buildCalls := c.buildCalls,
            cuPrice := cu }

/-! ## Provider fallback client (`metis-jupiter.ts`) -/

/-- One provider's reaction to the `/quote` GET: an HTTP response with its
status, truthiness of the `routePlan` / `outAmount` /
`otherAmountThreshold` fields and the `JSON.stringify(r.data)` text, or a
thrown transport error whose `mapAxiosErr` text is `msg`. -/
inductive QResp
  | resp (status : Nat) (routePlan outAmount otherThreshold : Bool) (body : String)
  | netErr (msg : String)
deriving DecidableEq

/-- The acceptance test of `getQuote`: HTTP 200 and evidence of a route. -/
def quoteAccepted : QResp → Bool
  | .resp status rp oa ot _ => status = 200 && (rp || oa || ot)
  | .netErr _ => false

/-- The `lastErr` text a rejected provider leaves behind. -/
def quoteErrText : QResp → String
  | .resp status _ _ _ body => "quote " ++ toString status ++ " " ++ strTake300 body
  | .netErr msg => msg

/-- The provider loop of `getQuote`, carrying `lastErr`. -/
def getQuoteGo : List QResp → String → Except String String
  | [], lastErr => .error (if lastErr = "" then "quote_failed" else lastErr)
  | r :: rest, _ =>
    match r with
    | .resp status rp oa ot body =>
      if status = 200 ∧ (rp || oa || ot) = true then .ok body
      else getQuoteGo rest (quoteErrText (.resp status rp oa ot body))
    | .netErr msg => getQuoteGo rest msg

/-- `metis-jupiter.ts` `getQuote` over the ordered provider-base list,
with each base's behaviour given by the environment list `provs`. -/
def metisGetQuote (provs : List QResp) : Except String String :=
  getQuoteGo provs ""

/-- One provider's reaction to a `/swap` POST: a response with status and
optional `swapTransaction` payload, or a thrown transport error. -/
inductive BResp
  | resp (status : Nat) (tx : Option String)
  | netErr
deriving DecidableEq

/-- A build provider: its base URL, its response to the request body as
first sent, and its response to the body with `asLegacyTransaction`
forced on. -/
structure BuildProv where
  base : String
  normal : BResp
  onLegacy : BResp
deriving DecidableEq

/-- The response a provider gives to a body whose legacy flag is `legacy`. -/
def respFor (p : BuildProv) (legacy : Bool) : BResp :=
  if legacy then p.onLegacy else p.normal

/-- The provider loop of `buildSwapTx`.  Returns the result together with
the request log: one `(base, legacyFlagUsed)` entry per HTTP POST issued.
On a 400/422 response to a non-legacy body, the same provider is retried
once with `asLegacyTransaction: true`; any other failure (including a
thrown transport error, also on the retry) advances to the next provider;
exhaustion throws `swap_failed`. -/
def buildGo (legacyFlag : Bool) : List BuildProv → Except String String × List (String × Bool)
  | [] => (.error "swap_failed", [])
  | p :: rest =>
    match respFor p legacyFlag with
    | .netErr =>
      ((buildGo legacyFlag rest).1, (p.base, legacyFlag) :: (buildGo legacyFlag rest).2)
    | .resp status tx =>
      if status = 200 then
        match tx with
        | some t => (.ok t, [(p.base, legacyFlag)])
        | none =>
          ((buildGo legacyFlag rest).1, (p.base, legacyFlag) :: (buildGo legacyFlag rest).2)
      else if (status = 400 ∨ status = 422) ∧ legacyFlag = false then
        match p.onLegacy with
        | .netErr =>
          ((buildGo legacyFlag rest).1,
            (p.base, false) :: (p.base, true) :: (buildGo legacyFlag rest).2)
        | .resp status2 tx2 =>
          if status2 = 200 ∧ tx2.isSome = true then
            (.ok (tx2.getD ""), [(p.base, false), (p.base, true)])
          else
            ((buildGo legacyFlag rest).1,
              (p.base, false) :: (p.base, true) :: (buildGo legacyFlag rest).2)
      else
        ((buildGo legacyFlag rest).1, (p.base, legacyFlag) :: (buildGo legacyFlag rest).2)

/-- `metis-jupiter.ts` `buildSwapTx`: `legacyFlag` is
`opts.asLegacyTransaction`, already part of the request body. -/
def metisBuildSwapTx (legacyFlag : Bool) (provs : List BuildProv) :
    Except String String × List (String × Bool) :=
  buildGo legacyFlag provs

/-! ## Jito relay client (`jito.js`) and the `/pumpfun/swap` handler -/

/-- The axios outcome of the relay POST (`validateStatus: () => true`, so
HTTP error statuses come back as responses; only transport failures throw). -/
inductive RelayNet
  | resp (status : Nat) (body : String)
  | netErr (msg : String)
deriving DecidableEq

/-- `sendBundleToJito`: 429 throws `jito rate-limited (429)`, any other
status ≥ 400 throws `jito error <status>: <body>`. -/
def sendBundleToJito : RelayNet → Except String Unit
  | .netErr m => .error m
  | .resp status body =>
    if status = 429 then .error "jito rate-limited (429)"
    else if 400 ≤ status then
      .error ("jito error " ++ toString status ++ ": " ++ body)
    else .ok ()

/-- A `simulateTransaction` outcome: clean, an on-chain error reported in
`sim.value.err`, or a thrown RPC call (swallowed by the handler). -/
inductive SimRes
  | ok
  | failed (errJson : String)
  | threw
deriving DecidableEq

/-- External world consumed by one `/pumpfun/swap` request after the
Trade Record is created. -/
structure PumpEnv where
  bundleBuild : Except String (List String)
  relay : RelayNet
  singleBuild : Except String String
  simulate : SimRes
  send : Except String String

/-- Trade Record status values (db.ts schema enum). -/
inductive TStatus
  | submitted
  | confirmed
  | failed
deriving DecidableEq

/-- One `Trade.findByIdAndUpdate` performed by the handler. -/
inductive TUpd
  | failedSim (errJson : String)
  | confirmedSig (sig : String)
  | submittedBundle
  | failedMsg (msg : String)
deriving DecidableEq

/-- The status field written by an update. -/
def statusOf : TUpd → TStatus
  | .failedSim _ => .failed
  | .confirmedSig _ => .confirmed
  | .submittedBundle => .submitted
  | .failedMsg _ => .failed

/-- HTTP response of the `/pumpfun/swap` handler. -/
inductive PumpResp
  | okSig (sig : String) (fallback : Bool)
  | okBundle
  | badRequestSim (errJson : String)
  | serverErr (msg : String)
deriving DecidableEq

/-- The single-transaction tail shared by the fallback path and the
non-bundle path: build, sign, best-effort simulate (a reported simulation
error updates the record to failed and answers 400; a thrown simulation
is swallowed), send, update to confirmed. -/
def pumpSingleTail (env : PumpEnv) (fallback : Bool) : PumpResp × List TUpd :=
  match env.singleBuild with
  | .error m => (.serverErr m, [.failedMsg m])
  | .ok _ =>
    match env.simulate with
    | .failed e => (.badRequestSim e, [.failedSim e])
    | _ =>
      match env.send with
      | .ok sig => (.okSig sig fallback, [.confirmedSig sig])
      | .error m => (.serverErr m, [.failedMsg m])

/-- The `/pumpfun/swap` handler body after `Trade.create`, returning the
HTTP response and the list of Trade Record updates it performed.  On the
bundle path a relay failure whose lower-cased message contains
`rate-limited` or `503` triggers the single-transaction fallback with
`fallback: true`; any other relay failure is rethrown into the outer
catch, which records `failed`.  A relay success records the non-terminal
`submitted` status with the `bundle_sent` placeholder. -/
def pumpfunSwap (useJito : Bool) (env : PumpEnv) : PumpResp × List TUpd :=
  if useJito then
    match env.bundleBuild with
    | .error m => (.serverErr m, [.failedMsg m])
    | .ok _ =>
      match sendBundleToJito env.relay with
      | .ok _ => (.okBundle, [.submittedBundle])
      | .error emsg =>
        let low := strLower emsg
        if strContains low "rate-limited" || strContains low "503" then
          pumpSingleTail env true
        else (.serverErr emsg, [.failedMsg emsg])
  else
    pumpSingleTail env false

/-! ## In-memory Trade store (`db.ts`) -/

/-- JSON-ish field values stored in a Trade document. -/
inductive JVal
  | str (s : String)
  | num (n : ℤ)
  | boolean (b : Bool)
  | nul
deriving DecidableEq

/-- A document: an association list of fields, unique keys, insertion
order preserved (a JS object). -/
abbrev JDoc := List (String × JVal)

/-- Property read `doc[k]`. -/
def docGet : JDoc → String → Option JVal
  | [], _ => none
  | (k', v') :: rest, k => if k' = k then some v' else docGet rest k

/-- Property write `doc[k] = v`: update in place if present, else append. -/
def docSet (d : JDoc) (k : String) (v : JVal) : JDoc :=
  match d with
  | [] => [(k, v)]
  | (k', v') :: rest => if k' = k then (k, v) :: rest else (k', v') :: docSet rest k v

/-- `Object.assign(target, update)`: every field of the update is written
into the target, in order. -/
def objAssign (target upd : JDoc) : JDoc :=
  upd.foldl (fun acc kv => docSet acc kv.1 kv.2) target

/-- The in-memory map `mem`, keyed by record id. -/
abbrev MemStore := List (String × JDoc)

/-- `mem.get(id)`. -/
def storeGet : MemStore → String → Option JDoc
  | [], _ => none
  | (k, d) :: rest, id => if k = id then some d else storeGet rest id

/-- `mem.set(id, doc)`. -/
def storeSet (st : MemStore) (id : String) (doc : JDoc) : MemStore :=
  match st with
  | [] => [(id, doc)]
  | (k, d) :: rest => if k = id then (id, doc) :: rest else (k, d) :: storeSet rest id doc

/-- In-memory `Trade.create`: `const rec = { ...doc, _id }; mem.set(_id, rec)`
with `newId` the freshly generated id.  Note: no default `status` field is
added; the record starts with whatever fields the caller supplied. -/
def tradeCreate (st : MemStore) (newId : String) (doc : JDoc) : JDoc × MemStore :=
  let r := docSet doc "_id" (.str newId)
  (r, storeSet st newId r)

/-- In-memory `Trade.findByIdAndUpdate`: a missing id returns `null` and
leaves the map untouched; otherwise `Object.assign(curr, update)` merges
every update field (including `_id`, if present) and the result is stored
back under the original key. -/
def tradeFindByIdAndUpdate (st : MemStore) (id : String) (upd : JDoc) :
    Option JDoc × MemStore :=
  match storeGet st id with
  | none => (none, st)
  | some curr =>
    let merged := objAssign curr upd
    (some merged, storeSet st id merged)

/-! ## Concrete fixtures used by witnesses and counterexamples -/

/-- 128 hex zero digits: a hex-encoded 64-byte secret key. -/
def hexKey128 : String := String.mk (List.replicate 128 '0')

/-- The same hex secret with the optional `0x` prefix. -/
def hexKey0x : String := "0x" ++ hexKey128

/-- A JSON-array secret of 64 bytes. -/
def jsonKey64 : String := String.mk ('[' :: ((List.replicate 63 ['7', ',']).flatten ++ ['7', ']']))

/-- 64 `'1'` characters: the base58 encoding of 64 zero bytes. -/
def onesKey64 : String := String.mk (List.replicate 64 '1')

/-- Balance environment with ample SOL but only 3 raw token units across
two holding accounts. -/
def balEnvTok : BalEnv :=
  { balLamports := 10000000, rentAta := 5, ataOutLookup := some true,
    tokenLookup := some [1, 2] }

/-- A token-sell swap of 5 raw units against `balEnvTok`. -/
def swapParamsTok : SwapParams :=
  { privateKey := hexKey128, inputMint := "TOK", outputMint := NATIVE_SOL,
    amountLamports := 5 }

/-- Environment for `swapParamsTok` whose attempts all succeed. -/
def dexEnvTok : DexEnv := { bal := balEnvTok, att := fun _ => .success "SIG" }

/-- A native-SOL-input swap against an empty wallet. -/
def swapParamsLow : SwapParams :=
  { privateKey := hexKey128, inputMint := NATIVE_SOL, outputMint := "TOK",
    amountLamports := 100 }

/-- Environment for `swapParamsLow`: zero balance, rent 5, output ATA
missing. -/
def dexEnvLow : DexEnv :=
  { bal := { balLamports := 0, rentAta := 5, ataOutLookup := some false,
             tokenLookup := some [] },
    att := fun _ => .success "S" }

/-- Bundle request whose relay call succeeds. -/
def pumpEnvBundleOk : PumpEnv :=
  { bundleBuild := .ok ["x"], relay := .resp 200 "ok", singleBuild := .ok "T",
    simulate := .ok, send := .ok "SIG" }

/-- Bundle request whose relay answers HTTP 503 and whose fallback
single-transaction path succeeds. -/
def pumpEnv503 : PumpEnv :=
  { bundleBuild := .ok ["x"], relay := .resp 503 "busy", singleBuild := .ok "T",
    simulate := .ok, send := .ok "SIG" }

/-- Bundle request whose relay answers HTTP 429 and whose fallback
single-transaction path succeeds. -/
def pumpEnv429 : PumpEnv :=
  { bundleBuild := .ok ["x"], relay := .resp 429 "slow down",
    singleBuild := .ok "T", simulate := .ok, send := .ok "SIG" }

/-- A one-record store. -/
def storeOne : MemStore := [("a", [("_id", .str "a"), ("status", .str "submitted")])]

/-- An update that names `_id`. -/
def updWithId : JDoc := [("_id", .str "b")]

/-- An update that does not name `_id`. -/
def updStatus : JDoc := [("status", .str "confirmed"), ("signature", .str "S")]

/-- A build provider answering 400 to the first body and succeeding on
the forced-legacy retry. -/
def provLegacyOk : BuildProv := { base := "A", normal := .resp 400 none, onLegacy := .resp 200 (some "TX") }

/-! ## Theorems -/

set_option maxRecDepth 4000 in
/-- C9 counterexample: the swap-path decoder `keyBytes` accepts a JSON
array of 3 bytes and returns it without any invalid-key-format failure,
contradicting "for any input whose decoded secret is not exactly 64
bytes, the call fails with an invalid-key-format error"; and the
pumpfun-path decoder `keypairFromInput` rejects a 64-byte `0x`-hex secret
with a base58 decoding error, contradicting "the key decoder accepts
exactly three encodings". -/
theorem keyDecoder_c9_counterexample :
    keyBytes "[1,2,3]" = .ok [1, 2, 3] ∧
    ([1, 2, 3] : List Nat).length ≠ 64 ∧
    keypairFromInput hexKey0x = .error KeyErr.base58Error := by
  refine ⟨by decide, by decide, by decide⟩

set_option maxRecDepth 4000 in
/-- C9 (amended): the repository has two key decoders.  `keyBytes`
(dex.ts) accepts all three encodings — JSON byte array, hex with
optional `0x`, base58 — but performs no length check, so a wrong-length
secret is returned as-is (failing only downstream in
`Keypair.fromSecretKey` with a generic size error); `keypairFromInput`
(solana.ts) enforces the exactly-64-bytes rule but accepts only the
JSON-array and base58 encodings, rejecting hex input through its base58
decoder. -/
theorem keyDecoder_c9_amended :
    keyBytes jsonKey64 = .ok (List.replicate 64 7) ∧
    keyBytes hexKey0x = .ok (List.replicate 64 0) ∧
    keyBytes "zz" = .ok [13, 35] ∧
    keyBytes "[1,2,3]" = .ok [1, 2, 3] ∧
    (∀ s bs, keypairFromInput s = .ok bs → bs.length = 64) ∧
    keypairFromInput jsonKey64 = .ok (List.replicate 64 7) ∧
    keypairFromInput onesKey64 = .ok (List.replicate 64 0) ∧
    keypairFromInput hexKey0x = .error KeyErr.base58Error := by
  refine ⟨by decide, by decide, by decide, by decide, ?_, by decide, by decide, by decide⟩
  intro s bs h
  rw [keypairFromInput] at h
  rcases hs : keypairSecretBytes s with e | bs'
  · rw [hs] at h
    simp [lengthGate] at h
  · rw [hs] at h
    by_cases hl : bs'.length = 64
    · simp only [lengthGate, if_pos hl] at h
      cases h
      exact hl
    · simp only [lengthGate, if_neg hl] at h
      cases h

/-- C9 witness: the amended theorem applied at the concrete JSON-array
secret `jsonKey64`. -/
theorem keyDecoder_c9_witness : (List.replicate 64 (7 : Nat)).length = 64 := by
  have h := keyDecoder_c9_amended
  exact h.2.2.2.2.1 jsonKey64 (List.replicate 64 7) h.2.2.2.2.2.1

/-- C6 (confirmed): with no explicit fee-unit override, a positive SOL
fee preference converts to `max 1 ⌊priorityFee * 5000000⌋` micro-lamports
per compute unit (so `0.0001` SOL yields `500`); a zero (or negative)
preference yields `none` (provider default); an explicit
`computeUnitPriceMicroLamports` override always takes precedence. -/
theorem feeTranslator_c6 (pf : ℚ) (o : ℤ) :
    (0 < pf → resolveCuPrice none pf = some (max 1 ⌊pf * 5000000⌋)) ∧
    (pf ≤ 0 → resolveCuPrice none pf = none) ∧
    resolveCuPrice (some o) pf = some o ∧
    resolveCuPrice none (1 / 10000) = some 500 := by
  refine ⟨fun h => ?_, fun h => ?_, rfl, ?_⟩
  · simp [resolveCuPrice, computeFromSol, h]
  · simp [resolveCuPrice, not_lt.mpr h]
  · have h1 : (0 : ℚ) < 1 / 10000 := by norm_num
    simp only [resolveCuPrice, if_pos h1, computeFromSol]
    have h2 : (1 / 10000 : ℚ) * 5000000 = (500 : ℤ) := by norm_num
    rw [h2, Int.floor_intCast]
    norm_num

/-- C6 witness: the fee theorem applied at `priorityFee = 0.0001` SOL and
override `7`. -/
theorem feeTranslator_c6_witness :
    resolveCuPrice none (1 / 10000) = some (max 1 ⌊(1 / 10000 : ℚ) * 5000000⌋) ∧
    resolveCuPrice (some 7) (1 / 10000) = some 7 := by
  have h := feeTranslator_c6 (1 / 10000) 7
  exact ⟨h.1 (by norm_num), h.2.2.1⟩

/-- C3 (code bug): when the signer's holding accounts for the input token
sum to 3 raw units against a requested 5, the token check constructs
`token_balance_low` — but the throw sits inside the same try block whose
catch swallows every error, so `ensureSufficientBalances` returns
normally and `dexSwap` proceeds all the way to a successful send.  The
claimed propagation to the caller never happens. -/
theorem tokenBalance_c3_swallowed :
    tokenCheckInner 5 balEnvTok = .error (.tokenBalanceLow 3 5) ∧
    ensureSufficientBalances "TOK" NATIVE_SOL 5 balEnvTok = .ok () ∧
    (dexSwap swapParamsTok dexEnvTok).result = .ok "SIG" := by
  refine ⟨by decide, by decide, by decide⟩

/-- C2 (confirmed): whenever the signer's native balance is strictly
below `10000 + (amount + rent if the input mint is native SOL) + (rent if
the output mint is a token whose ATA does not exist)`, `dexSwap` fails
with `balance_low` carrying the required amount and the balance (hence
the shortfall), and performs zero quote or build calls — the preflight
runs before the retried quote+build+send cycle.  The ATA hypothesis
requires the account lookup to have succeeded (`some b`); a thrown lookup
is ignored by the code. -/
theorem dexSwap_c2_balanceLow (p : SwapParams) (env : DexEnv) (b : Bool)
    (hf : ¬(p.privateKey = "" ∨ p.inputMint = "" ∨ p.outputMint = "" ∨ p.amountLamports = 0))
    (hk : ∃ bytes, keyBytes p.privateKey = .ok bytes ∧ bytes.length = 64)
    (hata : p.outputMint ≠ NATIVE_SOL → env.bal.ataOutLookup = some b)
    (hbal : env.bal.balLamports <
      10000 + (if p.inputMint = NATIVE_SOL then p.amountLamports + env.bal.rentAta else 0)
        + (if p.outputMint ≠ NATIVE_SOL ∧ b = false then env.bal.rentAta else 0)) :
    dexSwap p env = dexAbort (.preflight (.balanceLow
        (requiredLamports p.inputMint p.outputMint p.amountLamports env.bal)
        env.bal.balLamports)) ∧
    (dexSwap p env).quoteCalls = 0 ∧ (dexSwap p env).buildCalls = 0 ∧
    (dexSwap p env).attemptsRun = 0 ∧
    requiredLamports p.inputMint p.outputMint p.amountLamports env.bal =
      10000 + (if p.inputMint = NATIVE_SOL then p.amountLamports + env.bal.rentAta else 0)
        + (if p.outputMint ≠ NATIVE_SOL ∧ b = false then env.bal.rentAta else 0) := by
  have hreq : requiredLamports p.inputMint p.outputMint p.amountLamports env.bal =
      10000 + (if p.inputMint = NATIVE_SOL then p.amountLamports + env.bal.rentAta else 0)
        + (if p.outputMint ≠ NATIVE_SOL ∧ b = false then env.bal.rentAta else 0) := by
    unfold requiredLamports
    congr 1
    by_cases ho : p.outputMint = NATIVE_SOL
    · simp [ho]
    · rw [hata ho]
      cases b
      · simp [ho]
      · simp [ho]
  have hbal' : env.bal.balLamports <
      requiredLamports p.inputMint p.outputMint p.amountLamports env.bal := by
    rw [hreq]; exact hbal
  obtain ⟨bytes, hkb, hlen⟩ := hk
  have hens : ensureSufficientBalances p.inputMint p.outputMint p.amountLamports env.bal
      = .error (.balanceLow
          (requiredLamports p.inputMint p.outputMint p.amountLamports env.bal)
          env.bal.balLamports) := by
    unfold ensureSufficientBalances
    rw [if_pos hbal']
  have hmain : dexSwap p env = dexAbort (.preflight (.balanceLow
      (requiredLamports p.inputMint p.outputMint p.amountLamports env.bal)
      env.bal.balLamports)) := by
    unfold dexSwap
    rw [if_neg hf, hkb]
    dsimp only
    rw [if_neg (by simp [hlen]), hens]
  exact ⟨hmain, by rw [hmain]; rfl, by rw [hmain]; rfl, by rw [hmain]; rfl, hreq⟩

/-- C2 witness: the preflight theorem applied at a concrete empty wallet
buying a token with 100 lamports of native SOL input. -/
theorem dexSwap_c2_balanceLow_witness :
    dexSwap swapParamsLow dexEnvLow = dexAbort (.preflight (.balanceLow 10110 0)) ∧
    (dexSwap swapParamsLow dexEnvLow).quoteCalls = 0 ∧
    (dexSwap swapParamsLow dexEnvLow).buildCalls = 0 := by
  have h := dexSwap_c2_balanceLow swapParamsLow dexEnvLow false
    (by decide) ⟨List.replicate 64 0, by decide, by decide⟩
    (fun _ => rfl) (by decide)
  refine ⟨?_, h.2.1, h.2.2.1⟩
  have hreq : requiredLamports swapParamsLow.inputMint swapParamsLow.outputMint
      swapParamsLow.amountLamports dexEnvLow.bal = 10110 := by decide
  rw [h.1, hreq]
  rfl

/-- Step lemma: a successful attempt ends the loop at once. -/
theorem runFrom_ok (att : Nat → AttemptOutcome) (fuel idx : Nat) (s : String)
    (h : stepOf (att idx) = .ok s) :
    runFrom att (fuel + 1) idx =
      { result := .ok s, attemptsRun := 1, delays := [], quoteCalls := 1,
        buildCalls := buildInc (att idx) } := by
  rw [runFrom]
  simp only [h]

/-- Step lemma: an error that is not retried (non-transient, or the last
attempt) is thrown at once. -/
theorem runFrom_stop (att : Nat → AttemptOutcome) (fuel idx : Nat) (m : String)
    (h : stepOf (att idx) = .error m)
    (hcond : ¬(isTransientErr m = true ∧ idx ≠ 2)) :
    runFrom att (fuel + 1) idx =
      { result := .error m, attemptsRun := 1, delays := [], quoteCalls := 1,
        buildCalls := buildInc (att idx) } := by
  rw [runFrom]
  simp only [h]
  rw [if_neg hcond]

/-- Step lemma: a transient error before the last attempt sleeps
`500 * 2 ^ idx` and retries. -/
theorem runFrom_retry (att : Nat → AttemptOutcome) (fuel idx : Nat) (m : String)
    (h : stepOf (att idx) = .error m)
    (ht : isTransientErr m = true) (hidx : idx ≠ 2) :
    runFrom att (fuel + 1) idx =
      { result := (runFrom att fuel (idx + 1)).result,
        attemptsRun := (runFrom att fuel (idx + 1)).attemptsRun + 1,
        delays := 500 * 2 ^ idx :: (runFrom att fuel (idx + 1)).delays,
        quoteCalls := (runFrom att fuel (idx + 1)).quoteCalls + 1,
        buildCalls := (runFrom att fuel (idx + 1)).buildCalls + buildInc (att idx) } := by
  rw [runFrom]
  simp only [h]
  rw [if_pos ⟨ht, hidx⟩]

/-- C4 (confirmed): the quote+build+send cycle runs at most 3 attempts;
the backoff delays taken are exactly `500 * 2 ^ i` for the completed
non-final attempts (500ms then 1000ms); every non-final attempt failed
with a transient error text (`network_error`, `HTTP 5xx`, or `429`); and
the final result is exactly the last attempt's outcome — an error
propagates immediately when it is non-transient or the attempt bound is
reached. -/
theorem dexSwap_c4_retryPolicy (att : Nat → AttemptOutcome) :
    (runCycle att).attemptsRun ≤ 3 ∧
    1 ≤ (runCycle att).attemptsRun ∧
    (runCycle att).delays =
      (List.range ((runCycle att).attemptsRun - 1)).map (fun i => 500 * 2 ^ i) ∧
    (∀ i, i + 1 < (runCycle att).attemptsRun →
      ∃ m, stepOf (att i) = .error m ∧ isTransientErr m = true) ∧
    (∀ sig, (runCycle att).result = .ok sig →
      stepOf (att ((runCycle att).attemptsRun - 1)) = .ok sig) ∧
    (∀ m, (runCycle att).result = .error m →
      stepOf (att ((runCycle att).attemptsRun - 1)) = .error m ∧
      (isTransientErr m = false ∨ (runCycle att).attemptsRun = 3)) := by
  rcases h0 : stepOf (att 0) with m0 | s0
  · by_cases ht0 : isTransientErr m0 = true
    · -- attempt 0 transient, retried
      rcases h1 : stepOf (att 1) with m1 | s1
      · by_cases ht1 : isTransientErr m1 = true
        · -- attempt 1 transient, retried
          have e2 : runFrom att 1 2 =
              { result := stepOf (att 2), attemptsRun := 1, delays := [],
                quoteCalls := 1, buildCalls := buildInc (att 2) } := by
            rcases h2 : stepOf (att 2) with m2 | s2
            · exact runFrom_stop att 0 2 m2 h2 (fun hh => hh.2 rfl)
            · exact runFrom_ok att 0 2 s2 h2
          have e1 : runFrom att 2 1 =
              { result := (runFrom att 1 2).result,
                attemptsRun := (runFrom att 1 2).attemptsRun + 1,
                delays := 500 * 2 ^ 1 :: (runFrom att 1 2).delays,
                quoteCalls := (runFrom att 1 2).quoteCalls + 1,
                buildCalls := (runFrom att 1 2).buildCalls + buildInc (att 1) } :=
            runFrom_retry att 1 1 m1 h1 ht1 (by decide)
          have e0 : runFrom att 3 0 =
              { result := (runFrom att 2 1).result,
                attemptsRun := (runFrom att 2 1).attemptsRun + 1,
                delays := 500 * 2 ^ 0 :: (runFrom att 2 1).delays,
                quoteCalls := (runFrom att 2 1).quoteCalls + 1,
                buildCalls := (runFrom att 2 1).buildCalls + buildInc (att 0) } :=
            runFrom_retry att 2 0 m0 h0 ht0 (by decide)
          have hc : runCycle att =
              { result := stepOf (att 2), attemptsRun := 3, delays := [500, 1000],
                quoteCalls := 3,
                buildCalls := buildInc (att 2) + buildInc (att 1) + buildInc (att 0) } := by
            rw [runCycle, e0, e1, e2]
            norm_num
          simp only [hc]
          refine ⟨by norm_num, by norm_num, by decide, ?_, ?_, ?_⟩
          · intro i hi
            have hi2 : i = 0 ∨ i = 1 := by omega
            rcases hi2 with rfl | rfl
            · exact ⟨m0, h0, ht0⟩
            · exact ⟨m1, h1, ht1⟩
          · intro sig hsig
            exact hsig
          · intro m hm
            exact ⟨hm, Or.inr trivial⟩
        · -- attempt 1 error, not transient: propagate at attempt 1
          have e1 : runFrom att 2 1 =
              { result := .error m1, attemptsRun := 1, delays := [],
                quoteCalls := 1, buildCalls := buildInc (att 1) } :=
            runFrom_stop att 1 1 m1 h1 (fun hh => ht1 hh.1)
          have e0 : runFrom att 3 0 =
              { result := (runFrom att 2 1).result,
                attemptsRun := (runFrom att 2 1).attemptsRun + 1,
                delays := 500 * 2 ^ 0 :: (runFrom att 2 1).delays,
                quoteCalls := (runFrom att 2 1).quoteCalls + 1,
                buildCalls := (runFrom att 2 1).buildCalls + buildInc (att 0) } :=
            runFrom_retry att 2 0 m0 h0 ht0 (by decide)
          have hc : runCycle att =
              { result := .error m1, attemptsRun := 2, delays := [500],
                quoteCalls := 2, buildCalls := buildInc (att 1) + buildInc (att 0) } := by
            rw [runCycle, e0, e1]
            norm_num
          simp only [hc]
          refine ⟨by norm_num, by norm_num, by decide, ?_, ?_, ?_⟩
          · intro i hi
            have hi2 : i = 0 := by omega
            subst hi2
            exact ⟨m0, h0, ht0⟩
          · intro sig hsig
            exact absurd hsig (by simp)
          · intro m hm
            rw [Except.error.injEq] at hm
            subst hm
            exact ⟨h1, Or.inl (by simpa using ht1)⟩
      · -- attempt 1 succeeded
        have e1 : runFrom att 2 1 =
            { result := .ok s1, attemptsRun := 1, delays := [],
              quoteCalls := 1, buildCalls := buildInc (att 1) } :=
          runFrom_ok att 1 1 s1 h1
        have e0 : runFrom att 3 0 =
            { result := (runFrom att 2 1).result,
              attemptsRun := (runFrom att 2 1).attemptsRun + 1,
              delays := 500 * 2 ^ 0 :: (runFrom att 2 1).delays,
              quoteCalls := (runFrom att 2 1).quoteCalls + 1,
              buildCalls := (runFrom att 2 1).buildCalls + buildInc (att 0) } :=
          runFrom_retry att 2 0 m0 h0 ht0 (by decide)
        have hc : runCycle att =
            { result := .ok s1, attemptsRun := 2, delays := [500],
              quoteCalls := 2, buildCalls := buildInc (att 1) + buildInc (att 0) } := by
          rw [runCycle, e0, e1]
          norm_num
        simp only [hc]
        refine ⟨by norm_num, by norm_num, by decide, ?_, ?_, ?_⟩
        · intro i hi
          have hi2 : i = 0 := by omega
          subst hi2
          exact ⟨m0, h0, ht0⟩
        · intro sig hsig
          rw [Except.ok.injEq] at hsig
          subst hsig
          exact h1
        · intro m hm
          exact absurd hm (by simp)
    · -- attempt 0 error, not transient: propagate at attempt 0
      have e0 : runFrom att 3 0 =
          { result := .error m0, attemptsRun := 1, delays := [],
            quoteCalls := 1, buildCalls := buildInc (att 0) } :=
        runFrom_stop att 2 0 m0 h0 (fun hh => ht0 hh.1)
      have hc : runCycle att =
          { result := .error m0, attemptsRun := 1, delays := [],
            quoteCalls := 1, buildCalls := buildInc (att 0) } := by
        rw [runCycle, e0]
      simp only [hc]
      refine ⟨by norm_num, by norm_num, by decide, ?_, ?_, ?_⟩
      · intro i hi
        omega
      · intro sig hsig
        exact absurd hsig (by simp)
      · intro m hm
        rw [Except.error.injEq] at hm
        subst hm
        exact ⟨h0, Or.inl (by simpa using ht0)⟩
  · -- attempt 0 succeeded
    have e0 : runFrom att 3 0 =
        { result := .ok s0, attemptsRun := 1, delays := [],
          quoteCalls := 1, buildCalls := buildInc (att 0) } :=
      runFrom_ok att 2 0 s0 h0
    have hc : runCycle att =
        { result := .ok s0, attemptsRun := 1, delays := [],
          quoteCalls := 1, buildCalls := buildInc (att 0) } := by
      rw [runCycle, e0]
    simp only [hc]
    refine ⟨by norm_num, by norm_num, by decide, ?_, ?_, ?_⟩
    · intro i hi
      omega
    · intro sig hsig
      rw [Except.ok.injEq] at hsig
      subst hsig
      exact h0
    · intro m hm
      exact absurd hm (by simp)

/-- C4 witness: the retry theorem applied to attempts that all fail with
the transient text `HTTP 503 x`, confirming three attempts and the
500ms/1000ms backoff schedule. -/
theorem dexSwap_c4_retryPolicy_witness :
    (runCycle (fun _ => .quoteErr "HTTP 503 x")).delays =
      (List.range ((runCycle (fun _ => .quoteErr "HTTP 503 x")).attemptsRun - 1)).map
        (fun i => 500 * 2 ^ i) ∧
    (runCycle (fun _ => .quoteErr "HTTP 503 x")).attemptsRun ≤ 3 := by
  have h := dexSwap_c4_retryPolicy (fun _ => .quoteErr "HTTP 503 x")
  exact ⟨h.2.2.1, h.1⟩

/-- The acceptance test unfolded to the condition used in the loop. -/
theorem quoteAccepted_resp_iff (status : Nat) (rp oa ot : Bool) (body : String) :
    quoteAccepted (.resp status rp oa ot body) = true ↔
      (status = 200 ∧ (rp || oa || ot) = true) := by
  simp [quoteAccepted]

/-- If every earlier provider is rejected and this response is accepted,
the loop returns its payload, whatever error text was carried in. -/
theorem getQuoteGo_firstOk (pre : List QResp) (status : Nat) (rp oa ot : Bool)
    (body : String) (rest : List QResp)
    (hall : ∀ q ∈ pre, quoteAccepted q = false)
    (hacc : quoteAccepted (.resp status rp oa ot body) = true) :
    ∀ s, getQuoteGo (pre ++ .resp status rp oa ot body :: rest) s = .ok body := by
  induction pre with
  | nil =>
    intro s
    have hc : status = 200 ∧ (rp || oa || ot) = true :=
      (quoteAccepted_resp_iff status rp oa ot body).mp hacc
    simp only [List.nil_append, getQuoteGo]
    rw [if_pos hc]
  | cons q pre ih =>
    intro s
    have hq : quoteAccepted q = false := hall q (by simp)
    have hall' : ∀ r ∈ pre, quoteAccepted r = false :=
      fun r hr => hall r (by simp [hr])
    cases q with
    | resp st rp' oa' ot' b' =>
      have hcond : ¬(st = 200 ∧ (rp' || oa' || ot') = true) := by
        intro hc
        rw [(quoteAccepted_resp_iff st rp' oa' ot' b').mpr hc] at hq
        cases hq
      simp only [List.cons_append, getQuoteGo]
      rw [if_neg hcond]
      exact ih hall' (quoteErrText (QResp.resp st rp' oa' ot' b'))
    | netErr m =>
      simp only [List.cons_append, getQuoteGo]
      exact ih hall' m

/-- If every provider is rejected, the loop throws the last provider's
error text (or `quote_failed` when that text is empty), regardless of the
error text carried in. -/
theorem getQuoteGo_allFail (provs : List QResp) (lastq : QResp)
    (hlast : provs.getLast? = some lastq)
    (hall : ∀ q ∈ provs, quoteAccepted q = false) :
    ∀ s, getQuoteGo provs s =
      .error (if quoteErrText lastq = "" then "quote_failed" else quoteErrText lastq) := by
  induction provs with
  | nil => simp at hlast
  | cons q provs ih =>
    intro s
    have hq : quoteAccepted q = false := hall q (by simp)
    have hall' : ∀ r ∈ provs, quoteAccepted r = false :=
      fun r hr => hall r (by simp [hr])
    cases provs with
    | nil =>
      have hlq : q = lastq := by
        simp [List.getLast?] at hlast
        exact hlast
      subst hlq
      cases q with
      | resp st rp' oa' ot' b' =>
        have hcond : ¬(st = 200 ∧ (rp' || oa' || ot') = true) := by
          intro hc
          rw [(quoteAccepted_resp_iff st rp' oa' ot' b').mpr hc] at hq
          cases hq
        simp only [getQuoteGo]
        rw [if_neg hcond]
      | netErr m =>
        simp [getQuoteGo, quoteErrText]
    | cons q2 provs2 =>
      have hlast' : (q2 :: provs2).getLast? = some lastq := by
        rwa [List.getLast?_cons_cons] at hlast
      cases q with
      | resp st rp' oa' ot' b' =>
        have hcond : ¬(st = 200 ∧ (rp' || oa' || ot') = true) := by
          intro hc
          rw [(quoteAccepted_resp_iff st rp' oa' ot' b').mpr hc] at hq
          cases hq
        simp only [getQuoteGo]
        rw [if_neg hcond]
        exact ih hlast' hall' ""
      | netErr m =>
        simp only [getQuoteGo]
        exact ih hlast' hall' ""

/-- C5 (confirmed): `getQuote` returns the payload of the first provider
response that is HTTP 200 and carries a `routePlan`, `outAmount` or
`otherAmountThreshold` field; every other response or transport error
advances to the next provider retaining the last error text; exhausting
the list throws that last error text (`quote_failed` when empty).  In
particular a 500 from provider A followed by a valid route from provider
B yields B's result with no surfaced error. -/
theorem getQuote_c5 :
    (∀ (pre rest : List QResp) (status : Nat) (rp oa ot : Bool) (body : String),
      (∀ q ∈ pre, quoteAccepted q = false) →
      quoteAccepted (.resp status rp oa ot body) = true →
      metisGetQuote (pre ++ .resp status rp oa ot body :: rest) = .ok body) ∧
    (∀ (provs : List QResp) (lastq : QResp), provs.getLast? = some lastq →
      (∀ q ∈ provs, quoteAccepted q = false) →
      metisGetQuote provs = .error
        (if quoteErrText lastq = "" then "quote_failed" else quoteErrText lastq)) ∧
    metisGetQuote [] = .error "quote_failed" ∧
    metisGetQuote [.resp 500 false false false "boom", .resp 200 true false false "QUOTE"]
      = .ok "QUOTE" := by
  refine ⟨?_, ?_, by decide, by decide⟩
  · intro pre rest status rp oa ot body hall hacc
    exact getQuoteGo_firstOk pre status rp oa ot body rest hall hacc ""
  · intro provs lastq hlast hall
    exact getQuoteGo_allFail provs lastq hlast hall ""

/-- C5 witness: the fallback theorem applied to a provider A returning
HTTP 500 and a provider B returning a valid route. -/
theorem getQuote_c5_witness :
    metisGetQuote [QResp.resp 500 false false false "boom",
      QResp.resp 200 true false false "QUOTE"] = .ok "QUOTE" := by
  have h := getQuote_c5
  exact h.1 [QResp.resp 500 false false false "boom"] [] 200 true false false "QUOTE"
    (by decide) (by decide)

/-- C8 (confirmed): when a provider answers 400 or 422 to a request body
without the legacy flag, `buildSwapTx` posts exactly one more request to
the *same* provider with `asLegacyTransaction` forced on; a successful
retry returns its transaction, a failed retry (or transport error on the
retry) moves on to the next provider.  When the body already carries the
legacy flag, only one request per provider is posted. -/
theorem buildSwapTx_c8 (p : BuildProv) (rest : List BuildProv) (status : Nat)
    (tx : Option String)
    (hn : p.normal = .resp status tx) (hs : status = 400 ∨ status = 422) :
    (∃ tailLog, (metisBuildSwapTx false (p :: rest)).2 =
      (p.base, false) :: (p.base, true) :: tailLog) ∧
    (∀ t, p.onLegacy = .resp 200 (some t) →
      metisBuildSwapTx false (p :: rest) = (.ok t, [(p.base, false), (p.base, true)])) ∧
    (∀ status2 tx2, p.onLegacy = .resp status2 tx2 → ¬(status2 = 200 ∧ tx2.isSome = true) →
      (metisBuildSwapTx false (p :: rest)).1 = (metisBuildSwapTx false rest).1 ∧
      (metisBuildSwapTx false (p :: rest)).2 =
        (p.base, false) :: (p.base, true) :: (metisBuildSwapTx false rest).2) ∧
    (p.onLegacy = .netErr →
      (metisBuildSwapTx false (p :: rest)).1 = (metisBuildSwapTx false rest).1 ∧
      (metisBuildSwapTx false (p :: rest)).2 =
        (p.base, false) :: (p.base, true) :: (metisBuildSwapTx false rest).2) ∧
    (∀ (q : BuildProv) (rest2 : List BuildProv) (st2 : Nat) (tx2 : Option String),
      q.onLegacy = .resp st2 tx2 → ¬(st2 = 200 ∧ tx2.isSome = true) →
      (metisBuildSwapTx true (q :: rest2)).2 = (q.base, true) :: (metisBuildSwapTx true rest2).2) := by
  have hstep : metisBuildSwapTx false (p :: rest) =
      (match p.onLegacy with
       | .netErr =>
         ((buildGo false rest).1,
           (p.base, false) :: (p.base, true) :: (buildGo false rest).2)
       | .resp status2 tx2 =>
         if status2 = 200 ∧ tx2.isSome = true then
           (.ok (tx2.getD ""), [(p.base, false), (p.base, true)])
         else
           ((buildGo false rest).1,
             (p.base, false) :: (p.base, true) :: (buildGo false rest).2)) := by
    rw [metisBuildSwapTx, buildGo]
    rcases hs with rfl | rfl
    · simp [respFor, hn]
    · simp [respFor, hn]
  refine ⟨?_, ?_, ?_, ?_, ?_⟩
  · cases hl : p.onLegacy with
    | resp st2 tx2 =>
      by_cases hok : st2 = 200 ∧ tx2.isSome = true
      · exact ⟨[], by rw [hstep]; simp only [hl]; rw [if_pos hok]⟩
      · exact ⟨(buildGo false rest).2, by rw [hstep]; simp only [hl]; rw [if_neg hok]⟩
    | netErr =>
      exact ⟨(buildGo false rest).2, by rw [hstep]; simp only [hl]⟩
  · intro t hl
    rw [hstep]
    simp only [hl]
    rw [if_pos (by simp)]
    rfl
  · intro status2 tx2 hl hok
    rw [hstep]
    simp only [hl]
    rw [if_neg hok]
    exact ⟨rfl, rfl⟩
  · intro hl
    rw [hstep]
    simp only [hl]
    exact ⟨rfl, rfl⟩
  · intro q rest2 st2 tx2 hl hok
    have hq : respFor q true = .resp st2 tx2 := by simp [respFor, hl]
    rw [metisBuildSwapTx, buildGo]
    simp only [hq]
    by_cases h200 : st2 = 200
    · subst h200
      cases tx2 with
      | some t => exact absurd ⟨rfl, by simp⟩ hok
      | none => simp [metisBuildSwapTx]
    · rw [if_neg h200, if_neg (by simp)]
      rfl

/-- C8 witness: a provider answering 400 whose forced-legacy retry
succeeds, with no further providers. -/
theorem buildSwapTx_c8_witness :
    metisBuildSwapTx false [provLegacyOk] = (.ok "TX", [("A", false), ("A", true)]) := by
  have h := buildSwapTx_c8 provLegacyOk [] 400 none rfl (Or.inl rfl)
  exact h.2.1 "TX" rfl

/-- The single-transaction tail performs exactly one record update and it
is terminal (`confirmed` or `failed`). -/
theorem pumpSingleTail_oneTerminal (env : PumpEnv) (fb : Bool) :
    ((pumpSingleTail env fb).2).length = 1 ∧
    ∀ u ∈ (pumpSingleTail env fb).2, statusOf u = .confirmed ∨ statusOf u = .failed := by
  rcases hb : env.singleBuild with m | tx
  · simp [pumpSingleTail, hb, statusOf]
  · rcases hsim : env.simulate with _ | e | _
    · rcases hsend : env.send with m | sig
      · simp [pumpSingleTail, hb, hsim, hsend, statusOf]
      · simp [pumpSingleTail, hb, hsim, hsend, statusOf]
    · simp [pumpSingleTail, hb, hsim, statusOf]
    · rcases hsend : env.send with m | sig
      · simp [pumpSingleTail, hb, hsim, hsend, statusOf]
      · simp [pumpSingleTail, hb, hsim, hsend, statusOf]

/-- C1 (amended): every run of the `/pumpfun/swap` handler performs
exactly one Trade Record status update (so the record transitions at most
once), and that update is terminal (`confirmed` or `failed`) on every
return path except the bundle-relay-success path, which leaves the record
in the non-terminal `submitted` state. -/
theorem tradeRecord_c1_amended (useJito : Bool) (env : PumpEnv) :
    ((pumpfunSwap useJito env).2).length = 1 ∧
    (∀ u ∈ (pumpfunSwap useJito env).2,
      statusOf u = .confirmed ∨ statusOf u = .failed ∨
        (statusOf u = .submitted ∧ (pumpfunSwap useJito env).1 = .okBundle)) := by
  cases useJito with
  | false =>
    have h := pumpSingleTail_oneTerminal env false
    exact ⟨h.1, fun u hu => (h.2 u hu).elim Or.inl (fun hf => Or.inr (Or.inl hf))⟩
  | true =>
    rcases hbb : env.bundleBuild with m | arr
    · simp [pumpfunSwap, hbb, statusOf]
    · rcases hj : sendBundleToJito env.relay with emsg | u
      · by_cases hcond :
          (strContains (strLower emsg) "rate-limited" || strContains (strLower emsg) "503") = true
        · have heq : pumpfunSwap true env = pumpSingleTail env true := by
            simp [pumpfunSwap, hbb, hj, hcond]
          have h := pumpSingleTail_oneTerminal env true
          rw [heq]
          exact ⟨h.1, fun u hu => (h.2 u hu).elim Or.inl (fun hf => Or.inr (Or.inl hf))⟩
        · simp [pumpfunSwap, hbb, hj, hcond, statusOf]
      · simp [pumpfunSwap, hbb, hj, statusOf]

/-- C1 counterexample: a bundle request whose relay call succeeds returns
`{bundle: true, submitted: true}` and leaves the Trade Record in the
`submitted` state, which is not a terminal (`confirmed`/`failed`) state —
so the handler does leave the record permanently non-terminal on this
return path. -/
theorem tradeRecord_c1_counterexample :
    pumpfunSwap true pumpEnvBundleOk = (.okBundle, [.submittedBundle]) ∧
    statusOf .submittedBundle = .submitted ∧
    statusOf .submittedBundle ≠ .confirmed ∧
    statusOf .submittedBundle ≠ .failed := by
  refine ⟨rfl, rfl, by decide, by decide⟩

/-- C1 witness: the amended theorem applied to the bundle-success
environment. -/
theorem tradeRecord_c1_witness :
    statusOf TUpd.submittedBundle = .confirmed ∨
    statusOf TUpd.submittedBundle = .failed ∨
    (statusOf TUpd.submittedBundle = .submitted ∧
      (pumpfunSwap true pumpEnvBundleOk).1 = .okBundle) := by
  have h := tradeRecord_c1_amended true pumpEnvBundleOk
  exact h.2 TUpd.submittedBundle (by rw [show pumpfunSwap true pumpEnvBundleOk
    = (.okBundle, [.submittedBundle]) from rfl]; simp)

/-- C7 (amended): a bundle-path relay failure triggers the transparent
single-transaction fallback exactly when the lower-cased error message
contains `rate-limited` (the HTTP 429 case) or `503`; when the fallback
build, simulation and submission succeed the handler answers
`fallback: true` and records `confirmed` with the submission signature.
A relay error response whose message contains neither marker is terminal:
it propagates as a 500 and the record is set to `failed`. -/
theorem bundleFallback_c7_amended :
    (∀ (env : PumpEnv) (body sig tx : String) (arr : List String),
      env.bundleBuild = .ok arr →
      env.relay = .resp 429 body →
      env.singleBuild = .ok tx → env.simulate = .ok → env.send = .ok sig →
      pumpfunSwap true env = (.okSig sig true, [.confirmedSig sig])) ∧
    (∀ (env : PumpEnv) (status : Nat) (body : String) (arr : List String),
      env.bundleBuild = .ok arr →
      env.relay = .resp status body → 400 ≤ status → status ≠ 429 →
      strContains (strLower ("jito error " ++ toString status ++ ": " ++ body))
        "rate-limited" = false →
      strContains (strLower ("jito error " ++ toString status ++ ": " ++ body))
        "503" = false →
      pumpfunSwap true env =
        (.serverErr ("jito error " ++ toString status ++ ": " ++ body),
          [.failedMsg ("jito error " ++ toString status ++ ": " ++ body)])) := by
  constructor
  · intro env body sig tx arr hbb hr hsb hsim hsend
    have hj : sendBundleToJito env.relay = .error "jito rate-limited (429)" := by
      rw [hr, sendBundleToJito]
      rw [if_pos rfl]
    have hcond :
        (strContains (strLower "jito rate-limited (429)") "rate-limited" ||
          strContains (strLower "jito rate-limited (429)") "503") = true := by decide
    have heq : pumpfunSwap true env = pumpSingleTail env true := by
      simp [pumpfunSwap, hbb, hj, hcond]
    rw [heq]
    simp [pumpSingleTail, hsb, hsim, hsend]
  · intro env status body arr hbb hr h400 h429 hrl h503
    have hj : sendBundleToJito env.relay =
        .error ("jito error " ++ toString status ++ ": " ++ body) := by
      rw [hr, sendBundleToJito]
      rw [if_neg h429, if_pos h400]
    have hcond :
        (strContains (strLower ("jito error " ++ toString status ++ ": " ++ body))
            "rate-limited" ||
          strContains (strLower ("jito error " ++ toString status ++ ": " ++ body))
            "503") = false := by
      rw [hrl, h503]
      rfl
    simp [pumpfunSwap, hbb, hj, hcond]

/-- C7 counterexample: a relay HTTP 503 — an error with status ≥ 400
other than the 429 rate-limit case — is *not* terminal: the handler falls
back to the single-transaction path and answers `fallback: true` with a
`confirmed` record, instead of propagating the relay error. -/
theorem bundleFallback_c7_counterexample :
    pumpfunSwap true pumpEnv503 = (.okSig "SIG" true, [.confirmedSig "SIG"]) ∧
    PumpResp.okSig "SIG" true ≠ .serverErr "jito error 503: busy" := by
  refine ⟨rfl, by decide⟩

/-- C7 witness: the amended theorem applied to a concrete relay-429
environment whose fallback path succeeds. -/
theorem bundleFallback_c7_witness :
    pumpfunSwap true pumpEnv429 = (.okSig "SIG" true, [.confirmedSig "SIG"]) :=
  bundleFallback_c7_amended.1 pumpEnv429 "slow down" "SIG" "T" ["x"] rfl rfl rfl rfl rfl

/-- Writing a key then reading it gives the written value. -/
theorem docGet_docSet_self (d : JDoc) (k : String) (v : JVal) :
    docGet (docSet d k v) k = some v := by
  induction d with
  | nil => simp [docSet, docGet]
  | cons kv rest ih =>
    rcases kv with ⟨k', v'⟩
    by_cases h : k' = k
    · subst h
      simp [docSet, docGet]
    · simp [docSet, docGet, h, ih]

/-- Writing one key leaves every other key unchanged. -/
theorem docGet_docSet_ne (d : JDoc) (k' k : String) (v : JVal) (h : k' ≠ k) :
    docGet (docSet d k' v) k = docGet d k := by
  induction d with
  | nil => simp [docSet, docGet, h]
  | cons kv rest ih =>
    rcases kv with ⟨k1, v1⟩
    by_cases h1 : k1 = k'
    · subst h1
      simp [docSet, docGet, h]
    · by_cases h2 : k1 = k
      · subst h2
        simp [docSet, docGet, h1]
      · simp [docSet, docGet, h1, h2, ih]

/-- A key outside a document reads as `none`. -/
theorem docGet_none_of_notMem (d : JDoc) (k : String) (h : k ∉ d.map Prod.fst) :
    docGet d k = none := by
  induction d with
  | nil => rfl
  | cons kv rest ih =>
    rcases kv with ⟨k1, v1⟩
    simp only [List.map_cons, List.mem_cons] at h
    push_neg at h
    rw [docGet, if_neg (fun he => h.1 he.symm)]
    exact ih h.2

/-- `Object.assign` leaves fields the update does not name unchanged. -/
theorem objAssign_get_of_none (curr upd : JDoc) (k : String)
    (h : docGet upd k = none) :
    docGet (objAssign curr upd) k = docGet curr k := by
  induction upd generalizing curr with
  | nil => rfl
  | cons kv rest ih =>
    rcases kv with ⟨k1, v1⟩
    by_cases hk : k1 = k
    · rw [docGet, if_pos hk] at h
      cases h
    · rw [docGet, if_neg hk] at h
      have hstep : objAssign curr ((k1, v1) :: rest) = objAssign (docSet curr k1 v1) rest := rfl
      rw [hstep, ih (docSet curr k1 v1) h]
      exact docGet_docSet_ne curr k1 k v1 hk

/-- `Object.assign` writes every field the (duplicate-free) update names. -/
theorem objAssign_get_of_some (curr upd : JDoc) (k : String) (v : JVal)
    (hnd : (upd.map Prod.fst).Nodup) (h : docGet upd k = some v) :
    docGet (objAssign curr upd) k = some v := by
  induction upd generalizing curr with
  | nil => cases h
  | cons kv rest ih =>
    rcases kv with ⟨k1, v1⟩
    simp only [List.map_cons, List.nodup_cons] at hnd
    have hstep : objAssign curr ((k1, v1) :: rest) = objAssign (docSet curr k1 v1) rest := rfl
    by_cases hk : k1 = k
    · subst hk
      rw [docGet, if_pos rfl] at h
      injection h with hv
      subst hv
      have hrest : docGet rest k1 = none := docGet_none_of_notMem rest k1 hnd.1
      rw [hstep, objAssign_get_of_none (docSet curr k1 v1) rest k1 hrest]
      exact docGet_docSet_self curr k1 v1
    · rw [docGet, if_neg hk] at h
      rw [hstep]
      exact ih (docSet curr k1 v1) hnd.2 h

/-- C10 (amended): on the in-memory store, `findByIdAndUpdate` with a
missing id returns `null` and leaves the store unchanged; with an
existing id it stores `Object.assign(curr, update)` back under the
original key, writing every field the update names and preserving every
other field — including `_id`, but only when the update does not itself
name `_id` (the merge overwrites `_id` like any other field). -/
theorem tradeStore_c10_amended (st : MemStore) (id : String) (upd : JDoc) :
    (storeGet st id = none → tradeFindByIdAndUpdate st id upd = (none, st)) ∧
    (∀ curr, storeGet st id = some curr →
      (tradeFindByIdAndUpdate st id upd).1 = some (objAssign curr upd) ∧
      (tradeFindByIdAndUpdate st id upd).2 = storeSet st id (objAssign curr upd) ∧
      (∀ k, docGet upd k = none → docGet (objAssign curr upd) k = docGet curr k) ∧
      ((upd.map Prod.fst).Nodup → ∀ k v, docGet upd k = some v →
        docGet (objAssign curr upd) k = some v) ∧
      (docGet upd "_id" = none →
        docGet (objAssign curr upd) "_id" = docGet curr "_id")) := by
  constructor
  · intro h
    simp [tradeFindByIdAndUpdate, h]
  · intro curr h
    refine ⟨?_, ?_, ?_, ?_, ?_⟩
    · simp [tradeFindByIdAndUpdate, h]
    · simp [tradeFindByIdAndUpdate, h]
    · intro k hk
      exact objAssign_get_of_none curr upd k hk
    · intro hnd k v hv
      exact objAssign_get_of_some curr upd k v hnd hv
    · intro hk
      exact objAssign_get_of_none curr upd "_id" hk

/-- C10 counterexample: an update that names `_id` overwrites the stored
record's `_id` — `findByIdAndUpdate("a", {_id: "b"})` leaves a record
whose `_id` field is `"b"`, not the original `"a"`, so the claim's
unconditional "preserving the record's `_id`" fails. -/
theorem tradeStore_c10_counterexample :
    storeGet storeOne "a" = some [("_id", JVal.str "a"), ("status", JVal.str "submitted")] ∧
    (tradeFindByIdAndUpdate storeOne "a" updWithId).1 =
      some [("_id", JVal.str "b"), ("status", JVal.str "submitted")] ∧
    docGet [("_id", JVal.str "b"), ("status", JVal.str "submitted")] "_id" =
      some (JVal.str "b") ∧
    JVal.str "b" ≠ JVal.str "a" := by
  refine ⟨rfl, rfl, rfl, by decide⟩

/-- C10 witness: the amended theorem applied to a concrete store — a
missing id leaves the store untouched, and a status-only update preserves
the record's `_id`. -/
theorem tradeStore_c10_witness :
    tradeFindByIdAndUpdate storeOne "zz" updStatus = (none, storeOne) ∧
    docGet (objAssign [("_id", JVal.str "a"), ("status", JVal.str "submitted")] updStatus)
      "_id" = some (JVal.str "a") := by
  have h1 := tradeStore_c10_amended storeOne "zz" updStatus
  have h2 := tradeStore_c10_amended storeOne "a" updStatus
  refine ⟨h1.1 (by decide), ?_⟩
  have h3 := (h2.2 [("_id", JVal.str "a"), ("status", JVal.str "submitted")]
    (by decide)).2.2.2.2 (by decide)
  rw [h3]
  rfl
